import Mathlib

/-!
Verification of the PR-review backend core (diff parser and review
orchestrator) against its specification.  The Lean definitions below are a
shallow embedding of the Python sources in `backend/diff_parser.py`,
`backend/models.py`, `backend/agents.py` and `backend/orchestrator.py`:
pure functions become Lean functions, the line-scanning loops become
structural recursion over the list of lines, and the fallible external
calls (analyzer agents, the summarization model) become `Except`/`Option`
valued parameters.  Wall-clock timing is not modelled.
-/

namespace PRReview

/-! ### String utilities

Python string primitives (`str.startswith`, `str.split`, `'\n'.join`,
slicing) re-implemented structurally over `String.data` so that every
definition evaluates inside the kernel. -/

/-- Mirrors Python `s.startswith(p)` on the character lists. -/
def startsWithL : List Char → List Char → Bool
  | _, [] => true
  | [], _ :: _ => false
  | c :: cs, p :: ps => c = p && startsWithL cs ps

/-- Mirrors Python `s.startswith(p)`. -/
def sw (s p : String) : Bool := startsWithL s.data p.data

/-- Helper for `splitChar`: accumulates the current field in reverse. -/
def splitCharAux (sep : Char) : List Char → List Char → List String
  | acc, [] => [String.mk acc.reverse]
  | acc, c :: cs =>
    if c = sep then String.mk acc.reverse :: splitCharAux sep [] cs
    else splitCharAux sep (c :: acc) cs

/-- Mirrors Python `s.split(sep)` for a one-character separator:
`"".split(sep) == [""]` and a trailing separator yields a final `""`. -/
def splitChar (sep : Char) (s : String) : List String :=
  splitCharAux sep [] s.data

/-- Mirrors Python `s.split('\n')`. -/
def splitLines (s : String) : List String := splitChar '\n' s

/-- Mirrors Python `'\n'.join(ls)`. -/
def joinLines : List String → String
  | [] => ""
  | [l] => l
  | l :: ls => l ++ "\n" ++ joinLines ls

/-- Mirrors Python `line[1:]`. -/
def strDrop1 (s : String) : String := String.mk (s.data.drop 1)

/-- Mirrors `re.search(r'b/(.+)$', line)`: the leftmost occurrence of the
two characters `b/` that is followed by at least one further character;
the capture group is everything after that `b/` to the end of the line. -/
def searchB : List Char → Option (List Char)
  | [] => none
  | [_] => none
  | c1 :: c2 :: rest =>
    if c1 = 'b' ∧ c2 = '/' ∧ rest ≠ [] then some rest
    else searchB (c2 :: rest)

/-- Digit-string to number, as Python `int` on a run of ASCII digits. -/
def readDigits (cs : List Char) : Nat :=
  (cs.takeWhile Char.isDigit).foldl (fun n c => n * 10 + (c.toNat - 48)) 0

/-- Mirrors `re.search(r'\+(\d+)', line)`: the leftmost `+` that is
immediately followed by a digit; the capture group is the maximal digit
run after it. -/
def searchPlusNum : List Char → Option Nat
  | '+' :: c :: rest =>
    if c.isDigit then some (readDigits (c :: rest))
    else searchPlusNum (c :: rest)
  | _ :: rest => searchPlusNum rest
  | [] => none

/-! ### Data model (`backend/models.py`) -/

/-- `models.Severity`. -/
inductive Severity where
  | critical
  | high
  | medium
  | low
  | info
deriving DecidableEq

/-- `models.IssueCategory`. -/
inductive IssueCategory where
  | logic
  | security
  | performance
  | readability
  | best_practices
  | testing
  | documentation
deriving DecidableEq

/-- The `.value` string of an `IssueCategory` enum member. -/
def IssueCategory.value : IssueCategory → String
  | .logic => "logic"
  | .security => "security"
  | .performance => "performance"
  | .readability => "readability"
  | .best_practices => "best_practices"
  | .testing => "testing"
  | .documentation => "documentation"

/-- `models.ReviewIssue`. -/
structure ReviewIssue where
  category : IssueCategory
  severity : Severity
  line_number : Option Int
  filename : String
  code_snippet : String
  issue_description : String
  recommendation : String
  reasoning : String
deriving DecidableEq

/-- `models.FileChange`. -/
structure FileChange where
  filename : String
  additions : Nat
  deletions : Nat
  patch : String
  status : String
deriving DecidableEq

/-! ### Diff parser (`backend/diff_parser.py`) -/

/-- A line opens a new file section when it starts with `diff --git`. -/
def isFileHeader (l : String) : Bool := sw l "diff --git"

/-- The in-progress accumulator of `DiffParser.parse_diff` minus the
buffered patch body (`current_file` without the `patch` key). -/
structure FileMeta where
  filename : String
  additions : Nat
  deletions : Nat
  status : String

/-- Starting a new accumulator from a `diff --git` header line: the
filename is the capture of `re.search(r'b/(.+)$', line)`, or the literal
`"unknown"` when the search fails. -/
def newMeta (line : String) : FileMeta :=
  { filename :=
      match searchB line.data with
      | some cs => String.mk cs
      | none => "unknown"
    additions := 0
    deletions := 0
    status := "modified" }

/-- Flushing the accumulator: `files.append(FileChange(**current_file))`
with the buffered body joined by newlines; nothing when no file is open. -/
def flushOpt : Option FileMeta → List String → List FileChange
  | none, _ => []
  | some m, buf => [⟨m.filename, m.additions, m.deletions, joinLines buf, m.status⟩]

/-- The scanning loop of `DiffParser.parse_diff`, one branch per `elif`,
in source order: file header, `new file`, `deleted file`, addition line,
deletion line, any other line. -/
def parseGo : Option FileMeta → List String → List String → List FileChange
  | cur, buf, [] => flushOpt cur buf
  | cur, buf, l :: ls =>
    if isFileHeader l then
      flushOpt cur buf ++ parseGo (some (newMeta l)) [] ls
    else if sw l "new file" then
      parseGo (cur.map (fun m => { m with status := "added" })) buf ls
    else if sw l "deleted file" then
      parseGo (cur.map (fun m => { m with status := "deleted" })) buf ls
    else if sw l "+" && !(sw l "+++") then
      parseGo (cur.map (fun m => { m with additions := m.additions + 1 })) (buf ++ [l]) ls
    else if sw l "-" && !(sw l "---") then
      parseGo (cur.map (fun m => { m with deletions := m.deletions + 1 })) (buf ++ [l]) ls
    else
      parseGo cur (buf ++ [l]) ls

/-- `DiffParser.parse_diff`. -/
def parse_diff (s : String) : List FileChange := parseGo none [] (splitLines s)

/-- One record of `DiffParser.extract_changed_lines` output. -/
structure ChangedLine where
  line_number : Nat
  kind : String
  content : String
  raw : String
deriving DecidableEq

/-- One iteration of the `extract_changed_lines` loop over the pair of the
running post-image line counter and the emitted records. -/
def eclStep : Nat × List ChangedLine → String → Nat × List ChangedLine :=
  fun st line =>
    if sw line "@@" then
      match searchPlusNum line.data with
      | some m => (m, st.2)
      | none => st
    else if sw line "+" && !(sw line "+++") then
      (st.1 + 1, st.2 ++ [⟨st.1, "addition", strDrop1 line, line⟩])
    else if sw line "-" && !(sw line "---") then
      (st.1, st.2 ++ [⟨st.1, "deletion", strDrop1 line, line⟩])
    else if !(sw line "\\") then
      (st.1 + 1, st.2)
    else
      st

/-- `DiffParser.extract_changed_lines`. -/
def extract_changed_lines (patch : String) : List ChangedLine :=
  ((splitLines patch).foldl eclStep (0, [])).2

/-- `DiffParser.get_file_extension`. -/
def get_file_extension (filename : String) : String :=
  if filename.data.contains '.' then (splitChar '.' filename).getLastD ""
  else ""

/-! ### Analyzer result shapes (`backend/models.py`) -/

/-- `models.LogicAnalysisOutput`. -/
structure LogicAnalysisOutput where
  issues : List ReviewIssue
  potential_bugs : List String
  edge_cases_missing : List String
deriving DecidableEq

/-- `models.SecurityAnalysisOutput`. -/
structure SecurityAnalysisOutput where
  vulnerabilities : List ReviewIssue
  security_score : Nat
  critical_issues : List String
deriving DecidableEq

/-- `models.PerformanceAnalysisOutput`. -/
structure PerformanceAnalysisOutput where
  bottlenecks : List ReviewIssue
  optimization_suggestions : List String
  complexity_warnings : List String
deriving DecidableEq

/-- `models.ReadabilityAnalysisOutput`. -/
structure ReadabilityAnalysisOutput where
  style_issues : List ReviewIssue
  naming_suggestions : List String
  documentation_needed : List String
  readability_score : Nat
deriving DecidableEq

/-- `models.TestingAnalysisOutput`. -/
structure TestingAnalysisOutput where
  missing_tests : List String
  test_coverage_concerns : List String
  test_quality_issues : List ReviewIssue
deriving DecidableEq

/-- `models.AggregatedReview`.  `summary_by_category` is the Python dict
modelled as an insertion-ordered association list. -/
structure AggregatedReview where
  overall_assessment : String
  approval_status : String
  critical_blockers : List ReviewIssue
  all_issues : List ReviewIssue
  strengths : List String
  summary_by_category : List (String × Nat)
  priority_actions : List String
deriving DecidableEq

/-! ### Orchestrator (`backend/orchestrator.py`)

The five analyzer agents and the aggregator model are remote-call
collaborators: each agent is modelled as a function returning
`Except String` (an `error` models the call raising), and the aggregator
model's parsed response as an `Option AggregatedReview` (`none` models the
chain raising).  `ReviewOrchestrator._analyze_file` stores `None` for an
agent whose call raised (`results[agent_name] = None`), modelled as
`Option`-valued per-file entries. -/

/-- The per-file analysis context built in `_analyze_file`. -/
structure AnalysisContext where
  filename : String
  language : String
  changes : String
  patch : String

/-- The fixed analyzer roster, one `Except`-valued call per agent. -/
structure Agents where
  logic : AnalysisContext → Except String LogicAnalysisOutput
  security : AnalysisContext → Except String SecurityAnalysisOutput
  performance : AnalysisContext → Except String PerformanceAnalysisOutput
  readability : AnalysisContext → Except String ReadabilityAnalysisOutput
  testing : AnalysisContext → Except String TestingAnalysisOutput

/-- The `try/except` around `future.result()` in `_analyze_file`: a raised
call becomes the `None` placeholder. -/
def exceptToOpt : Except String α → Option α
  | .ok a => some a
  | .error _ => none

/-- The context dict built at the top of `_analyze_file`. -/
def mkContext (fc : FileChange) : AnalysisContext :=
  { filename := fc.filename
    language := get_file_extension fc.filename
    changes := joinLines ((extract_changed_lines fc.patch).map (fun cl => cl.raw))
    patch := fc.patch }

/-- The `results` dict produced by `_analyze_file` for one file: all five
keys are always present; a failed call holds `none`. -/
structure FileResults where
  logic : Option LogicAnalysisOutput
  security : Option SecurityAnalysisOutput
  performance : Option PerformanceAnalysisOutput
  readability : Option ReadabilityAnalysisOutput
  testing : Option TestingAnalysisOutput

/-- `ReviewOrchestrator._analyze_file`.  The thread-pool fan-out is
order-irrelevant because results are reassembled keyed by agent name, so
it is modelled as five independent calls. -/
def analyze_file (ags : Agents) (fc : FileChange) : FileResults :=
  let ctx := mkContext fc
  { logic := exceptToOpt (ags.logic ctx)
    security := exceptToOpt (ags.security ctx)
    performance := exceptToOpt (ags.performance ctx)
    readability := exceptToOpt (ags.readability ctx)
    testing := exceptToOpt (ags.testing ctx) }

/-- The `all_analyses` dict of `review_pr`: per-agent lists of per-file
results in input file order, `none` marking a failed call. -/
structure AllAnalyses where
  logic : List (Option LogicAnalysisOutput)
  security : List (Option SecurityAnalysisOutput)
  performance : List (Option PerformanceAnalysisOutput)
  readability : List (Option ReadabilityAnalysisOutput)
  testing : List (Option TestingAnalysisOutput)
deriving DecidableEq

/-- The per-file loop of `review_pr`: skip `deleted` files, analyze the
rest, append each agent's result to its running list. -/
def review_pr_analyses (ags : Agents) (files : List FileChange) : AllAnalyses :=
  files.foldl
    (fun acc fc =>
      if fc.status = "deleted" then acc
      else
        let r := analyze_file ags fc
        { logic := acc.logic ++ [r.logic]
          security := acc.security ++ [r.security]
          performance := acc.performance ++ [r.performance]
          readability := acc.readability ++ [r.readability]
          testing := acc.testing ++ [r.testing] })
    ⟨[], [], [], [], []⟩

/-- The `if analysis and hasattr(...)` guard in `_collect_all_issues`: the
typed results always carry the attribute, so only the `None` placeholder
contributes nothing. -/
def optIssues (f : α → List ReviewIssue) : Option α → List ReviewIssue
  | some a => f a
  | none => []

/-- `ReviewOrchestrator._collect_all_issues`: five sequential
`all_issues.extend` loops, one per agent, in source order. -/
def collect_all_issues (a : AllAnalyses) : List ReviewIssue :=
  let all0 : List ReviewIssue := []
  let all1 := a.logic.foldl (fun acc o => acc ++ optIssues (fun r => r.issues) o) all0
  let all2 := a.security.foldl (fun acc o => acc ++ optIssues (fun r => r.vulnerabilities) o) all1
  let all3 := a.performance.foldl (fun acc o => acc ++ optIssues (fun r => r.bottlenecks) o) all2
  let all4 := a.readability.foldl (fun acc o => acc ++ optIssues (fun r => r.style_issues) o) all3
  a.testing.foldl (fun acc o => acc ++ optIssues (fun r => r.test_quality_issues) o) all4

/-- The list-membership test `issue.severity in [Severity.CRITICAL,
Severity.HIGH]` from `_generate_aggregated_review`. -/
def isBlocker (i : ReviewIssue) : Bool :=
  [Severity.critical, Severity.high].contains i.severity

/-- The `critical_blockers` list comprehension of
`_generate_aggregated_review` (before the fallback's truncation). -/
def critical_blockers_of (issues : List ReviewIssue) : List ReviewIssue :=
  issues.filter isBlocker

/-- One `summary_by_category[category] = summary_by_category.get(category,
0) + 1` update on the insertion-ordered dict. -/
def bump : List (String × Nat) → String → List (String × Nat)
  | [], k => [(k, 1)]
  | (k', v) :: rest, k =>
    if k' = k then (k', v + 1) :: rest else (k', v) :: bump rest k

/-- The category-tally loop of `_generate_aggregated_review`; the issues
always carry the enum, so the key is `issue.category.value`. -/
def tally (issues : List ReviewIssue) : List (String × Nat) :=
  issues.foldl (fun acc i => bump acc i.category.value) []

/-- The approval-status chain of `_generate_aggregated_review`, branch for
branch: any critical, else any blocker, else any issue, else approved. -/
def approval_status_of (issues : List ReviewIssue) : String :=
  if issues.any (fun i => i.severity == Severity.critical) then "CHANGES_REQUESTED"
  else if !(critical_blockers_of issues).isEmpty then "CHANGES_REQUESTED"
  else if !issues.isEmpty then "COMMENTED"
  else "APPROVED"

/-- The deterministic fallback `AggregatedReview` built in the `except`
branch of `_generate_aggregated_review`.  `securityMention` models the
Python `any('security' in str(a) for a in analyses.values())` test on the
rendered analyses. -/
def fallback_review (issues : List ReviewIssue) (securityMention : Bool) : AggregatedReview :=
  { overall_assessment := "Review completed with automated analysis."
    approval_status := approval_status_of issues
    critical_blockers := (critical_blockers_of issues).take 10
    all_issues := issues.take 50
    strengths := ["Code changes submitted"] ++ (if securityMention then ["High security score"] else [])
    summary_by_category := tally issues
    priority_actions := ["Review all flagged issues", "Address critical blockers first", "Improve test coverage"] }

/-- The orchestrator's structural self-check on the model's response: a
returned issue with an empty (falsy) `filename`, `code_snippet` or
`issue_description` raises, triggering the fallback. -/
def validIssue (i : ReviewIssue) : Bool :=
  !(i.filename == "") && !(i.code_snippet == "") && !(i.issue_description == "")

/-- `ReviewOrchestrator._generate_aggregated_review` with the aggregator
model's parsed response abstracted as `llm` (`none` models the LLM chain
raising before a structured result exists). -/
def generate_aggregated_review (llm : Option AggregatedReview)
    (issues : List ReviewIssue) (securityMention : Bool) : AggregatedReview :=
  match llm with
  | some r =>
    if r.critical_blockers.all validIssue && r.all_issues.all validIssue then r
    else fallback_review issues securityMention
  | none => fallback_review issues securityMention

/-- The dict returned by `review_pr` (wall-clock `processing_time`
omitted). -/
structure ReviewResult where
  review : AggregatedReview
  agent_analyses : AllAnalyses

/-- `ReviewOrchestrator.review_pr`. -/
def review_pr (ags : Agents) (llm : Option AggregatedReview)
    (securityMention : Bool) (files : List FileChange) : ReviewResult :=
  let analyses := review_pr_analyses ags files
  let issues := collect_all_issues analyses
  { review := generate_aggregated_review llm issues securityMention
    agent_analyses := analyses }

/-! ### Specification-side definitions

These follow the wording of the specification (not the source) and are
compared against the embedded code. -/

/-- A finding gates the review in the spec's sense when its severity is
critical or high. -/
def specCritHigh (i : ReviewIssue) : Bool :=
  i.severity == Severity.critical || i.severity == Severity.high

/-- The disposition rule as the specification states it: request changes
iff some finding is critical or high, otherwise comment iff the finding
set is non-empty, otherwise approve. -/
def spec_approval_status (issues : List ReviewIssue) : String :=
  if issues.any specCritHigh then "CHANGES_REQUESTED"
  else if !issues.isEmpty then "COMMENTED"
  else "APPROVED"

/-- Analyzer-major flattening of the finding-bearing fields: all files'
logic issues, then all files' security vulnerabilities, then performance
bottlenecks, readability style issues and testing quality issues. -/
def analyzer_major_issues (a : AllAnalyses) : List ReviewIssue :=
  (a.logic.map (optIssues (fun r => r.issues))).flatten
    ++ (a.security.map (optIssues (fun r => r.vulnerabilities))).flatten
    ++ (a.performance.map (optIssues (fun r => r.bottlenecks))).flatten
    ++ (a.readability.map (optIssues (fun r => r.style_issues))).flatten
    ++ (a.testing.map (optIssues (fun r => r.test_quality_issues))).flatten

/-- A patch-body line retained by `parse_diff`: everything except the
file-status lines (the section header is handled separately). -/
def keepLine (l : String) : Bool :=
  !(sw l "new file") && !(sw l "deleted file")

/-- Splitting the input lines into file sections: a section starts at each
`diff --git` header and runs to the next header or the end of input;
lines before the first header belong to no section. -/
def secGo : Option (List String) → List String → List (List String)
  | none, [] => []
  | some sec, [] => [sec]
  | cur, l :: ls =>
    if isFileHeader l then
      (match cur with
       | none => []
       | some sec => [sec]) ++ secGo (some [l]) ls
    else
      secGo (cur.map (fun sec => sec ++ [l])) ls

/-- The file sections of a line stream. -/
def sectionsOf (ls : List String) : List (List String) := secGo none ls

/-- What the `patch` of a section's `FileChange` actually retains: the
section body minus the header and minus the file-status lines. -/
def retainedPatch (sec : List String) : String :=
  joinLines ((sec.drop 1).filter keepLine)

/-! ### Concrete fixtures used by witnesses and counterexamples -/

/-- A critical security finding with all required fields populated. -/
def cIssue : ReviewIssue :=
  ⟨.security, .critical, none, "app.py", "query = base + user_input",
   "SQL injection risk", "Use parameterized queries", "Untrusted input reaches the query"⟩

/-- A low-severity readability finding. -/
def lowIssue : ReviewIssue :=
  ⟨.readability, .low, some 3, "app.py", "x = 1", "Unclear name",
   "Rename the variable", "Readability"⟩

/-- File 1's logic finding. -/
def issA : ReviewIssue :=
  ⟨.logic, .medium, some 10, "f1.py", "if x = 1:", "Assignment in condition",
   "Use a comparison", "Likely a typo"⟩

/-- File 1's security finding. -/
def issB : ReviewIssue :=
  ⟨.security, .low, some 20, "f1.py", "print(token)", "Token logged",
   "Remove the log line", "Secrets must not be logged"⟩

/-- File 2's logic finding. -/
def issC : ReviewIssue :=
  ⟨.logic, .low, some 5, "f2.py", "while True:", "Possible infinite loop",
   "Add a break condition", "No exit path"⟩

/-- The empty-but-valid defaults each agent returns from its own
`except` branch (`agents.py`). -/
def logicDefault : LogicAnalysisOutput := ⟨[], [], []⟩

/-- `SecurityAnalysisOutput(security_score=50)`. -/
def securityDefault : SecurityAnalysisOutput := ⟨[], 50, []⟩

/-- `PerformanceAnalysisOutput()`. -/
def performanceDefault : PerformanceAnalysisOutput := ⟨[], [], []⟩

/-- `ReadabilityAnalysisOutput(readability_score=50)`. -/
def readabilityDefault : ReadabilityAnalysisOutput := ⟨[], [], [], 50⟩

/-- `TestingAnalysisOutput()`. -/
def testingDefault : TestingAnalysisOutput := ⟨[], [], []⟩

/-- An agent roster whose logic agent raises on every call while the four
others return their defaults. -/
def agentsLogicFails : Agents :=
  { logic := fun _ => .error "boom"
    security := fun _ => .ok securityDefault
    performance := fun _ => .ok performanceDefault
    readability := fun _ => .ok readabilityDefault
    testing := fun _ => .ok testingDefault }

/-- A non-deleted file change. -/
def tf1 : FileChange := ⟨"a.py", 1, 0, "@@ -0,0 +1 @@\n+pass", "added"⟩

/-- A non-deleted file change with an empty patch. -/
def tf2 : FileChange := ⟨"b.py", 0, 0, "", "modified"⟩

/-- A non-deleted file change with one deletion. -/
def tf3 : FileChange := ⟨"c.py", 0, 1, "@@ -1 +0,0 @@\n-pass", "modified"⟩

/-- Three non-deleted file changes. -/
def threeFiles : List FileChange := [tf1, tf2, tf3]

/-- The worked patch from the specification's line-number example. -/
def hunkExample : String := "@@ -1,2 +10,3 @@\n context\n+added\n-deleted\n"

/-- Analyses of a two-file run in which file 1 has one logic and one
security finding and file 2 has one logic finding. -/
def cexAnalyses : AllAnalyses :=
  { logic := [some ⟨[issA], [], []⟩, some ⟨[issC], [], []⟩]
    security := [some ⟨[issB], 90, []⟩, some ⟨[], 95, []⟩]
    performance := [some performanceDefault, some performanceDefault]
    readability := [some readabilityDefault, some readabilityDefault]
    testing := [some testingDefault, some testingDefault] }

/-- Reading a count off the tally dict (0 for an absent key). -/
def lookupCount : List (String × Nat) → String → Nat
  | [], _ => 0
  | (k', v) :: rest, k => if k' = k then v else lookupCount rest k

/-- The sum of all counts in the tally dict. -/
def sumVals (l : List (String × Nat)) : Nat := (l.map (fun p => p.2)).sum

/-! ### Helper lemmas -/

lemma isBlocker_eq_specCritHigh (i : ReviewIssue) : isBlocker i = specCritHigh i := by
  cases i with
  | mk c s ln f cs d r w => cases s <;> rfl

lemma blockers_isEmpty_false_of_any (issues : List ReviewIssue)
    (h : issues.any specCritHigh = true) :
    (critical_blockers_of issues).isEmpty = false := by
  rw [List.any_eq_true] at h
  obtain ⟨i, hi, hp⟩ := h
  have hm : i ∈ critical_blockers_of issues := by
    unfold critical_blockers_of
    rw [List.mem_filter]
    exact ⟨hi, by rw [isBlocker_eq_specCritHigh]; exact hp⟩
  cases hfe : critical_blockers_of issues with
  | nil => rw [hfe] at hm; cases hm
  | cons a as => rfl

lemma approval_status_of_eq_spec (issues : List ReviewIssue) :
    approval_status_of issues = spec_approval_status issues := by
  unfold approval_status_of spec_approval_status
  by_cases hch : issues.any specCritHigh = true
  · have hne := blockers_isEmpty_false_of_any issues hch
    by_cases hc : issues.any (fun i => i.severity == Severity.critical) = true
    · simp [hch, hc]
    · rw [Bool.not_eq_true] at hc
      simp [hch, hc, hne]
  · rw [Bool.not_eq_true] at hch
    have hcf : issues.any (fun i => i.severity == Severity.critical) = false := by
      cases hc : issues.any (fun i => i.severity == Severity.critical) with
      | false => rfl
      | true =>
        exfalso
        rw [List.any_eq_true] at hc
        obtain ⟨i, hi, hp⟩ := hc
        have : issues.any specCritHigh = true := by
          rw [List.any_eq_true]
          refine ⟨i, hi, ?_⟩
          unfold specCritHigh
          rw [hp]
          rfl
        rw [this] at hch; cases hch
    have hbe : (critical_blockers_of issues).isEmpty = true := by
      unfold critical_blockers_of
      cases hfe : issues.filter isBlocker with
      | nil => rfl
      | cons a as =>
        exfalso
        have ham : a ∈ issues.filter isBlocker := by
          rw [hfe]; exact List.mem_cons_self a as
        rw [List.mem_filter] at ham
        obtain ⟨ha, hb⟩ := ham
        have : issues.any specCritHigh = true := by
          rw [List.any_eq_true]
          exact ⟨a, ha, by rw [← isBlocker_eq_specCritHigh]; exact hb⟩
        rw [this] at hch; cases hch
    simp [hch, hcf, hbe]

lemma lookupCount_bump (acc : List (String × Nat)) (k0 k : String) :
    lookupCount (bump acc k0) k
      = lookupCount acc k + (if k0 = k then 1 else 0) := by
  induction acc with
  | nil =>
    by_cases h : k0 = k <;> simp [bump, lookupCount, h]
  | cons p rest ih =>
    obtain ⟨k', v⟩ := p
    by_cases h : k' = k0
    · subst h
      by_cases h2 : k' = k <;> simp [bump, lookupCount, h2]
    · by_cases h2 : k' = k
      · have hk : ¬k0 = k := fun he => h (h2.trans he.symm)
        have hk2 : ¬k = k0 := fun he => h (h2.trans he)
        simp [bump, lookupCount, h, h2, hk, hk2]
      · simp [bump, lookupCount, h, h2, ih]

lemma sumVals_bump (acc : List (String × Nat)) (k : String) :
    sumVals (bump acc k) = sumVals acc + 1 := by
  induction acc with
  | nil => simp [bump, sumVals]
  | cons p rest ih =>
    obtain ⟨k', v⟩ := p
    by_cases h : k' = k <;> simp [bump, sumVals, h] <;>
      simp [sumVals] at ih <;> omega

lemma lookupCount_tallyFrom (issues : List ReviewIssue)
    (acc : List (String × Nat)) (k : String) :
    lookupCount (issues.foldl (fun a i => bump a i.category.value) acc) k
      = lookupCount acc k
        + (issues.filter (fun i => i.category.value == k)).length := by
  induction issues generalizing acc with
  | nil => simp
  | cons i rest ih =>
    rw [List.foldl_cons, ih, lookupCount_bump, List.filter_cons]
    by_cases h : i.category.value = k
    · simp [h]; omega
    · have hb : (i.category.value == k) = false := by
        rw [beq_eq_false_iff_ne]; exact h
      simp [h, hb]

lemma sumVals_tallyFrom (issues : List ReviewIssue)
    (acc : List (String × Nat)) :
    sumVals (issues.foldl (fun a i => bump a i.category.value) acc)
      = sumVals acc + issues.length := by
  induction issues generalizing acc with
  | nil => simp
  | cons i rest ih =>
    rw [List.foldl_cons, ih, sumVals_bump, List.length_cons]
    omega

lemma category_value_inj (c c' : IssueCategory) (h : c.value = c'.value) : c = c' := by
  cases c <;> cases c' <;> first | rfl | (exfalso; exact absurd h (by decide))

/-! ### Claim theorems -/

/-- C1: for the deterministic review computed by the orchestrator (the
aggregator model abstracted as failing, so the locally computed status is
returned), `approval_status` is `CHANGES_REQUESTED` iff some finding has
severity critical or high, otherwise `COMMENTED` iff the finding set is
non-empty, otherwise `APPROVED` — stated as equality with the spec's
disposition rule. -/
theorem C1_disposition (issues : List ReviewIssue) (b : Bool) :
    (generate_aggregated_review none issues b).approval_status
      = spec_approval_status issues :=
  approval_status_of_eq_spec issues

/-- C2 counterexample: with 11 critical findings the fallback review's
`critical_blockers` (truncated to 10) is not the severity-filtered subset
of its `all_issues` (all 11), refuting the claim for the fallback. -/
theorem C2_counterexample :
    (fallback_review (List.replicate 11 cIssue) false).critical_blockers
      ≠ (fallback_review (List.replicate 11 cIssue) false).all_issues.filter specCritHigh := by
  decide

/-- C2 amended: before truncation `critical_blockers` is exactly the
subset of `all_issues` with severity critical or high; for the fallback
review the same holds provided at most 10 findings are critical or high
and at most 50 findings exist in total (the truncations are then the
identity). -/
theorem C2_critical_blockers (issues : List ReviewIssue) (b : Bool)
    (h1 : issues.length ≤ 50)
    (h2 : (critical_blockers_of issues).length ≤ 10) :
    critical_blockers_of issues = issues.filter specCritHigh ∧
    (fallback_review issues b).critical_blockers
      = (fallback_review issues b).all_issues.filter specCritHigh := by
  have hfilter : critical_blockers_of issues = issues.filter specCritHigh := by
    unfold critical_blockers_of
    congr 1
    funext i
    exact isBlocker_eq_specCritHigh i
  refine ⟨hfilter, ?_⟩
  show (critical_blockers_of issues).take 10 = (issues.take 50).filter specCritHigh
  rw [List.take_of_length_le h2, List.take_of_length_le h1, hfilter]

/-- C2 witness: the amended statement instantiated at a single critical
finding. -/
theorem C2_witness :
    critical_blockers_of [cIssue] = [cIssue].filter specCritHigh ∧
    (fallback_review [cIssue] false).critical_blockers
      = (fallback_review [cIssue] false).all_issues.filter specCritHigh :=
  C2_critical_blockers [cIssue] false (by decide) (by decide)

/-- C3 counterexample: with 51 findings the sum of the fallback review's
`summary_by_category` counts (tallied before truncation, 51) differs from
the length of its truncated `all_issues` (50), refuting the claim for the
fallback. -/
theorem C3_counterexample :
    sumVals (fallback_review (List.replicate 51 lowIssue) false).summary_by_category
      ≠ (fallback_review (List.replicate 51 lowIssue) false).all_issues.length := by
  decide

/-- C3 amended: `summary_by_category` maps each category to the number of
findings with that category in the untruncated issue list, and the sum of
its counts equals that list's length; this also equals the length of the
fallback review's `all_issues` provided at most 50 findings exist. -/
theorem C3_summary_by_category (issues : List ReviewIssue) (b : Bool)
    (c : IssueCategory) (h : issues.length ≤ 50) :
    lookupCount (fallback_review issues b).summary_by_category c.value
      = (issues.filter (fun i => i.category == c)).length ∧
    sumVals (fallback_review issues b).summary_by_category = issues.length ∧
    sumVals (fallback_review issues b).summary_by_category
      = (fallback_review issues b).all_issues.length := by
  have hsum : sumVals (tally issues) = issues.length := by
    unfold tally
    rw [sumVals_tallyFrom]
    simp [sumVals]
  refine ⟨?_, hsum, ?_⟩
  · show lookupCount (tally issues) c.value = _
    unfold tally
    rw [lookupCount_tallyFrom]
    have : (fun i : ReviewIssue => i.category.value == c.value)
        = (fun i : ReviewIssue => i.category == c) := by
      funext i
      by_cases hc : i.category = c
      · simp [hc]
      · have h1 : (i.category == c) = false := by
          rw [beq_eq_false_iff_ne]; exact hc
        have h2 : (i.category.value == c.value) = false := by
          rw [beq_eq_false_iff_ne]
          exact fun he => hc (category_value_inj _ _ he)
        rw [h1, h2]
    rw [this]
    simp [lookupCount]
  · show sumVals (tally issues) = (issues.take 50).length
    rw [hsum, List.take_of_length_le h]

/-- C3 witness: the amended statement instantiated at a single finding. -/
theorem C3_witness :
    lookupCount (fallback_review [cIssue] false).summary_by_category
        IssueCategory.security.value
      = ([cIssue].filter (fun i => i.category == IssueCategory.security)).length ∧
    sumVals (fallback_review [cIssue] false).summary_by_category = 1 ∧
    sumVals (fallback_review [cIssue] false).summary_by_category
      = (fallback_review [cIssue] false).all_issues.length :=
  C3_summary_by_category [cIssue] false .security (by decide)

/-- C4 counterexample: in a 3-file run whose logic agent raises on every
call, the orchestrator's per-file entries for that agent are the `None`
placeholder, not the agent's declared empty-but-valid default, refuting
the claim's "never a null placeholder". -/
theorem C4_counterexample :
    (review_pr agentsLogicFails none false threeFiles).agent_analyses.logic
      = [none, none, none] ∧
    (none : Option LogicAnalysisOutput) ≠ some logicDefault := by
  exact ⟨by decide, by decide⟩

/-- C4 amended: a failure raised by one analyzer call is caught at the
`future.result()` call site and that analyzer's entry becomes the `None`
placeholder (which downstream collection skips); the sibling analyzers and
the review still complete, so a 3-file, 5-analyzer run with one
always-failing analyzer returns 3 present entries for each of the other 4
analyzers and 3 `None` entries for the failing one. -/
theorem C4_fault_isolation (ags : Agents) (llm : Option AggregatedReview)
    (b : Bool) (f1 f2 f3 : FileChange)
    (h1 : f1.status ≠ "deleted") (h2 : f2.status ≠ "deleted")
    (h3 : f3.status ≠ "deleted")
    (hl : ∀ c, exceptToOpt (ags.logic c) = none)
    (hs : ∀ c, (exceptToOpt (ags.security c)).isSome = true)
    (hp : ∀ c, (exceptToOpt (ags.performance c)).isSome = true)
    (hr : ∀ c, (exceptToOpt (ags.readability c)).isSome = true)
    (ht : ∀ c, (exceptToOpt (ags.testing c)).isSome = true) :
    (review_pr ags llm b [f1, f2, f3]).agent_analyses.logic = [none, none, none] ∧
    (review_pr ags llm b [f1, f2, f3]).agent_analyses.security.length = 3 ∧
    (review_pr ags llm b [f1, f2, f3]).agent_analyses.security.all Option.isSome = true ∧
    (review_pr ags llm b [f1, f2, f3]).agent_analyses.performance.length = 3 ∧
    (review_pr ags llm b [f1, f2, f3]).agent_analyses.performance.all Option.isSome = true ∧
    (review_pr ags llm b [f1, f2, f3]).agent_analyses.readability.length = 3 ∧
    (review_pr ags llm b [f1, f2, f3]).agent_analyses.readability.all Option.isSome = true ∧
    (review_pr ags llm b [f1, f2, f3]).agent_analyses.testing.length = 3 ∧
    (review_pr ags llm b [f1, f2, f3]).agent_analyses.testing.all Option.isSome = true := by
  simp only [review_pr, review_pr_analyses, analyze_file, List.foldl_cons,
    List.foldl_nil, if_neg h1, if_neg h2, if_neg h3]
  simp [hl, hs, hp, hr, ht]

/-- C4 witness: the amended statement instantiated at the concrete
3-file run with the always-failing logic agent. -/
theorem C4_witness :
    (review_pr agentsLogicFails none false [tf1, tf2, tf3]).agent_analyses.logic
      = [none, none, none] ∧
    (review_pr agentsLogicFails none false [tf1, tf2, tf3]).agent_analyses.security.length = 3 ∧
    (review_pr agentsLogicFails none false [tf1, tf2, tf3]).agent_analyses.security.all Option.isSome = true ∧
    (review_pr agentsLogicFails none false [tf1, tf2, tf3]).agent_analyses.performance.length = 3 ∧
    (review_pr agentsLogicFails none false [tf1, tf2, tf3]).agent_analyses.performance.all Option.isSome = true ∧
    (review_pr agentsLogicFails none false [tf1, tf2, tf3]).agent_analyses.readability.length = 3 ∧
    (review_pr agentsLogicFails none false [tf1, tf2, tf3]).agent_analyses.readability.all Option.isSome = true ∧
    (review_pr agentsLogicFails none false [tf1, tf2, tf3]).agent_analyses.testing.length = 3 ∧
    (review_pr agentsLogicFails none false [tf1, tf2, tf3]).agent_analyses.testing.all Option.isSome = true :=
  C4_fault_isolation agentsLogicFails none false tf1 tf2 tf3
    (by decide) (by decide) (by decide)
    (fun _ => rfl) (fun _ => rfl) (fun _ => rfl) (fun _ => rfl) (fun _ => rfl)

/-- C5: reviewing an empty file-change list yields an empty neutral
review: every per-analyzer result sequence is empty for any aggregator
response, the merged issue list is empty, and the deterministic review
has `approval_status` APPROVED with empty `all_issues`; the computation
is total, so it cannot fault. -/
theorem C5_empty_input (ags : Agents) (b : Bool) :
    (∀ llm, (review_pr ags llm b []).agent_analyses = ⟨[], [], [], [], []⟩) ∧
    collect_all_issues (review_pr ags none b []).agent_analyses = [] ∧
    (review_pr ags none b []).review.approval_status = "APPROVED" ∧
    (review_pr ags none b []).review.all_issues = [] :=
  ⟨fun _ => rfl, rfl, rfl, rfl⟩

lemma foldl_append_optIssues (f : α → List ReviewIssue)
    (l : List (Option α)) (acc : List ReviewIssue) :
    l.foldl (fun a o => a ++ optIssues f o) acc
      = acc ++ (l.map (optIssues f)).flatten := by
  induction l generalizing acc with
  | nil => simp
  | cons o rest ih => simp [ih]

/-- C6 counterexample: a 2-file run where file 1 has a logic finding
`issA` and a security finding `issB` and file 2 has a logic finding
`issC`.  The merged list is `[issA, issC, issB]` (analyzer-major), not
the claimed file-major order `[issA, issB, issC]`. -/
theorem C6_counterexample :
    collect_all_issues cexAnalyses = [issA, issC, issB] ∧
    [issA, issC, issB] ≠ [issA, issB, issC] := by
  exact ⟨by decide, by decide⟩

/-- C6 amended: the merged `all_issues` sequence flattens the analyzers'
finding-bearing collections in analyzer-declared order first (logic,
security, performance, readability, testing) and file order within each
analyzer — analyzer-major, not file-major — and duplicates across
analyzers are preserved: an issue's multiplicity in the merge is the sum
of its multiplicities in the five flattened collections. -/
theorem C6_merge_order (a : AllAnalyses) (i : ReviewIssue) :
    collect_all_issues a = analyzer_major_issues a ∧
    (collect_all_issues a).count i
      = ((a.logic.map (optIssues (fun r => r.issues))).flatten.count i
          + (a.security.map (optIssues (fun r => r.vulnerabilities))).flatten.count i
          + (a.performance.map (optIssues (fun r => r.bottlenecks))).flatten.count i
          + (a.readability.map (optIssues (fun r => r.style_issues))).flatten.count i
          + (a.testing.map (optIssues (fun r => r.test_quality_issues))).flatten.count i) := by
  have hmain : collect_all_issues a = analyzer_major_issues a := by
    unfold collect_all_issues analyzer_major_issues
    simp only [foldl_append_optIssues, List.nil_append, List.append_assoc]
  refine ⟨hmain, ?_⟩
  rw [hmain]
  unfold analyzer_major_issues
  simp only [List.count_append]

/-- C7: `extract_changed_lines` reconstructs post-image line numbers in
one pass.  Its per-line step satisfies: a hunk header resets the counter
to the parsed post-image start (unchanged when the parse fails) without
emitting; an addition emits at the current counter and advances it; a
deletion emits at the current counter without advancing; any other line
except a backslash-prefixed marker advances without emitting; and on the
spec's worked patch the addition lands at line 11 and the deletion at
line 12. -/
theorem C7_extract_changed_lines (n : Nat) (out : List ChangedLine) (line : String) :
    (sw line "@@" = true →
      eclStep (n, out) line = ((searchPlusNum line.data).getD n, out)) ∧
    (sw line "@@" = false → sw line "+" = true → sw line "+++" = false →
      eclStep (n, out) line = (n + 1, out ++ [⟨n, "addition", strDrop1 line, line⟩])) ∧
    (sw line "@@" = false → (sw line "+" = false ∨ sw line "+++" = true) →
      sw line "-" = true → sw line "---" = false →
      eclStep (n, out) line = (n, out ++ [⟨n, "deletion", strDrop1 line, line⟩])) ∧
    (sw line "@@" = false → (sw line "+" = false ∨ sw line "+++" = true) →
      (sw line "-" = false ∨ sw line "---" = true) → sw line "\\" = false →
      eclStep (n, out) line = (n + 1, out)) ∧
    (sw line "@@" = false → (sw line "+" = false ∨ sw line "+++" = true) →
      (sw line "-" = false ∨ sw line "---" = true) → sw line "\\" = true →
      eclStep (n, out) line = (n, out)) ∧
    extract_changed_lines hunkExample
      = [⟨11, "addition", "added", "+added"⟩, ⟨12, "deletion", "deleted", "-deleted"⟩] := by
  refine ⟨?_, ?_, ?_, ?_, ?_, by decide⟩
  · intro h
    unfold eclStep
    cases hs : searchPlusNum line.data <;> simp [h, hs]
  · intro h0 h1 h2
    simp [eclStep, h0, h1, h2]
  · intro h0 hpm h1 h2
    have hplus : (sw line "+" && !(sw line "+++")) = false := by
      rcases hpm with h | h <;> simp [h]
    simp [eclStep, h0, hplus, h1, h2]
  · intro h0 hpm hmm h1
    have hplus : (sw line "+" && !(sw line "+++")) = false := by
      rcases hpm with h | h <;> simp [h]
    have hminus : (sw line "-" && !(sw line "---")) = false := by
      rcases hmm with h | h <;> simp [h]
    simp [eclStep, h0, hplus, hminus, h1]
  · intro h0 hpm hmm h1
    have hplus : (sw line "+" && !(sw line "+++")) = false := by
      rcases hpm with h | h <;> simp [h]
    have hminus : (sw line "-" && !(sw line "---")) = false := by
      rcases hmm with h | h <;> simp [h]
    simp [eclStep, h0, hplus, hminus, h1]

/-- C7 witness: the header and addition transitions at concrete lines and
the spec's worked patch. -/
theorem C7_witness :
    eclStep (5, []) "@@ -1,2 +10,3 @@" = (10, []) ∧
    eclStep (11, []) "+added" = (12, [⟨11, "addition", "added", "+added"⟩]) ∧
    extract_changed_lines hunkExample
      = [⟨11, "addition", "added", "+added"⟩, ⟨12, "deletion", "deleted", "-deleted"⟩] := by
  refine ⟨?_, ?_, (C7_extract_changed_lines 0 [] "").2.2.2.2.2⟩
  · rw [(C7_extract_changed_lines 5 [] "@@ -1,2 +10,3 @@").1 (by decide)]
    decide
  · rw [(C7_extract_changed_lines 11 [] "+added").2.1 (by decide) (by decide) (by decide)]
    decide

lemma parseGo_none_buf (ls : List String) :
    ∀ buf buf', parseGo none buf ls = parseGo none buf' ls := by
  induction ls with
  | nil => intro buf buf'; rfl
  | cons l ls ih =>
    intro buf buf'
    simp only [parseGo, Option.map_none']
    split_ifs
    · rfl
    · exact ih buf buf'
    · exact ih buf buf'
    · exact ih (buf ++ [l]) (buf' ++ [l])
    · exact ih (buf ++ [l]) (buf' ++ [l])
    · exact ih (buf ++ [l]) (buf' ++ [l])

lemma parseGo_none_skip_pre (pre rest : List String)
    (h : ∀ l ∈ pre, isFileHeader l = false) :
    ∀ buf, parseGo none buf (pre ++ rest) = parseGo none buf rest := by
  induction pre with
  | nil => intro buf; rfl
  | cons l pre ih =>
    intro buf
    have hl : isFileHeader l = false := h l (List.mem_cons_self l pre)
    have hpre : ∀ l' ∈ pre, isFileHeader l' = false :=
      fun l' hm => h l' (List.mem_cons_of_mem l hm)
    simp only [List.cons_append, parseGo, hl, Bool.false_eq_true, if_false,
      Option.map_none']
    split_ifs
    · exact ih hpre buf
    · exact ih hpre buf
    · exact (ih hpre (buf ++ [l])).trans (parseGo_none_buf rest (buf ++ [l]) buf)
    · exact (ih hpre (buf ++ [l])).trans (parseGo_none_buf rest (buf ++ [l]) buf)
    · exact (ih hpre (buf ++ [l])).trans (parseGo_none_buf rest (buf ++ [l]) buf)

/-- C9: every input line preceding the first `diff --git` header is
silently discarded by the parser: prefixing any headerless lines leaves
the parse unchanged (so they appear in no patch and affect no counts),
and an input with no header lines at all parses to the empty sequence. -/
theorem C9_prefix_discarded (pre rest : List String)
    (h : ∀ l ∈ pre, isFileHeader l = false) :
    parseGo none [] (pre ++ rest) = parseGo none [] rest ∧
    parseGo none [] pre = [] := by
  refine ⟨parseGo_none_skip_pre pre rest h [], ?_⟩
  have h2 := parseGo_none_skip_pre pre [] h []
  rw [List.append_nil] at h2
  exact h2

/-- C9 witness: two headerless lines before a file header are dropped,
and a headerless input parses to nothing. -/
theorem C9_witness :
    parseGo none [] (["junk before the diff", "+x"] ++ ["diff --git a/a b/a"])
      = parseGo none [] ["diff --git a/a b/a"] ∧
    parseGo none [] ["junk before the diff", "+x"] = [] :=
  C9_prefix_discarded ["junk before the diff", "+x"] ["diff --git a/a b/a"]
    (by decide)

lemma parseGo_patches_aux (ls : List String) :
    ∀ (m : FileMeta) (hd : String) (raw : List String),
      (parseGo (some m) (raw.filter keepLine) ls).map (fun fc => fc.patch)
        = (secGo (some (hd :: raw)) ls).map retainedPatch := by
  induction ls with
  | nil =>
    intro m hd raw
    simp [parseGo, secGo, flushOpt, retainedPatch]
  | cons l ls ih =>
    intro m hd raw
    by_cases hh : isFileHeader l = true
    · simp only [parseGo, secGo, hh, if_true, List.map_append]
      have h2 := ih (newMeta l) l []
      simp only [List.filter_nil] at h2
      rw [h2]
      simp [flushOpt, retainedPatch]
    · rw [Bool.not_eq_true] at hh
      have hsec : (secGo (some (hd :: raw)) (l :: ls)).map retainedPatch
          = (secGo (some (hd :: (raw ++ [l]))) ls).map retainedPatch := by
        simp [secGo, hh]
      rw [hsec]
      simp only [parseGo, hh, Bool.false_eq_true, if_false, Option.map_some']
      split_ifs with h1 h2 h3 h4
      · have hk : keepLine l = false := by simp [keepLine, h1]
        have hb : List.filter keepLine raw = List.filter keepLine (raw ++ [l]) := by
          rw [List.filter_append]; simp [hk]
        rw [hb]
        exact ih _ hd (raw ++ [l])
      · have hk : keepLine l = false := by simp [keepLine, h2]
        have hb : List.filter keepLine raw = List.filter keepLine (raw ++ [l]) := by
          rw [List.filter_append]; simp [hk]
        rw [hb]
        exact ih _ hd (raw ++ [l])
      · rw [Bool.not_eq_true] at h1 h2
        have hk : keepLine l = true := by simp [keepLine, h1, h2]
        have hb : List.filter keepLine raw ++ [l] = List.filter keepLine (raw ++ [l]) := by
          rw [List.filter_append]; simp [hk]
        rw [hb]
        exact ih _ hd (raw ++ [l])
      · rw [Bool.not_eq_true] at h1 h2
        have hk : keepLine l = true := by simp [keepLine, h1, h2]
        have hb : List.filter keepLine raw ++ [l] = List.filter keepLine (raw ++ [l]) := by
          rw [List.filter_append]; simp [hk]
        rw [hb]
        exact ih _ hd (raw ++ [l])
      · rw [Bool.not_eq_true] at h1 h2
        have hk : keepLine l = true := by simp [keepLine, h1, h2]
        have hb : List.filter keepLine raw ++ [l] = List.filter keepLine (raw ++ [l]) := by
          rw [List.filter_append]; simp [hk]
        rw [hb]
        exact ih _ hd (raw ++ [l])

lemma parseGo_patches_none (ls : List String) :
    ∀ buf, (parseGo none buf ls).map (fun fc => fc.patch)
      = (secGo none ls).map retainedPatch := by
  induction ls with
  | nil => intro buf; rfl
  | cons l ls ih =>
    intro buf
    by_cases hh : isFileHeader l = true
    · simp only [parseGo, secGo, hh, if_true, List.map_append]
      have h2 := parseGo_patches_aux ls (newMeta l) l []
      simp only [List.filter_nil] at h2
      rw [h2]
      simp [flushOpt]
    · rw [Bool.not_eq_true] at hh
      simp only [parseGo, secGo, hh, Bool.false_eq_true, if_false, Option.map_none']
      split_ifs <;> exact ih _

/-- C8 counterexample: in the section
`diff --git a/f b/f` / `new file mode 100644` / `+hello` the status line
is dropped from the patch, so the patch is `+hello`, not the verbatim
section body minus the header. -/
theorem C8_counterexample :
    (parse_diff "diff --git a/f b/f\nnew file mode 100644\n+hello").map (fun fc => fc.patch)
      = ["+hello"] ∧
    ("+hello" : String) ≠ "new file mode 100644\n+hello" := by
  exact ⟨by decide, by decide⟩

/-- C8 amended: for every FileChange in the output of `parse_diff`, the
concatenation of its retained patch body lines reproduces the
corresponding file section of the input verbatim except for the
`diff --git` header line and any `new file`/`deleted file` status lines,
which are omitted. -/
theorem C8_patch_roundtrip (s : String) :
    (parse_diff s).map (fun fc => fc.patch)
      = (sectionsOf (splitLines s)).map retainedPatch := by
  unfold parse_diff sectionsOf
  exact parseGo_patches_none (splitLines s) []

lemma searchB_none_of_noTok (cs : List Char)
    (h : ∀ (pre suf : List Char) (c : Char), cs ≠ pre ++ 'b' :: '/' :: c :: suf) :
    searchB cs = none := by
  induction cs with
  | nil => rfl
  | cons a rest ih =>
    cases rest with
    | nil => rfl
    | cons b rest2 =>
      have hcond : ¬(a = 'b' ∧ b = '/' ∧ rest2 ≠ []) := by
        rintro ⟨ha, hb, hne⟩
        subst ha; subst hb
        cases rest2 with
        | nil => exact hne rfl
        | cons c suf => exact h [] suf c rfl
      have hrest : ∀ (pre suf : List Char) (c : Char),
          b :: rest2 ≠ pre ++ 'b' :: '/' :: c :: suf := by
        intro pre suf c he
        exact h (a :: pre) suf c (by rw [List.cons_append, ← he])
      rw [show searchB (a :: b :: rest2)
            = if a = 'b' ∧ b = '/' ∧ rest2 ≠ [] then some rest2
              else searchB (b :: rest2) from rfl,
        if_neg hcond]
      exact ih hrest

/-- C10: a `diff --git` header line that contains no `b/<path>` token (no
occurrence of `b/` followed by at least one character) still starts a new
FileChange rather than failing, and its filename is the literal
`"unknown"`. -/
theorem C10_unknown_filename (line : String)
    (hhead : isFileHeader line = true)
    (hb : ∀ (pre suf : List Char) (c : Char), line.data ≠ pre ++ 'b' :: '/' :: c :: suf) :
    parseGo none [] [line] = [⟨"unknown", 0, 0, "", "modified"⟩] := by
  have hB : searchB line.data = none := searchB_none_of_noTok line.data hb
  simp [parseGo, hhead, newMeta, hB, flushOpt, joinLines]

/-- C10 witness: the bare header line `diff --git` (no path tokens at
all) yields one FileChange named `unknown`. -/
theorem C10_witness :
    parseGo none [] ["diff --git"] = [⟨"unknown", 0, 0, "", "modified"⟩] :=
  C10_unknown_filename "diff --git" (by decide)
    (by
      intro pre suf c he
      have hmem : ('b' : Char) ∈ "diff --git".data := by
        rw [he]
        exact List.mem_append_right _ (List.mem_cons_self _ _)
      exact absurd hmem (by decide))

end PRReview
